import Mathlib

/-!
Shallow embedding of `server.go` from consti/currentcondition.

Coordinates are modelled as exact rationals (`ℚ`); Go's `math.Round`
(round half away from zero) is `goRound`. The durable SQLite state is a
pair of row lists (`locations`, `visitors`); each SQL statement is one
atomic step on that state, and a step-indexed failure oracle models
storage errors. The websocket hub registry is a list of client records;
the channel `select`/`default` sends become conditional enqueues on a
bounded queue. Lock acquisition of the hub sections is recorded
separately to reason about the readers-writer discipline.
-/

set_option autoImplicit false

/-- Go's `math.Round`: round to the nearest integer, halves away from zero. -/
def goRound (x : ℚ) : ℤ :=
  if 0 ≤ x then ⌊x + 1 / 2⌋ else -⌊-x + 1 / 2⌋

/-- `roundCoord` (server.go:322-325): round a coordinate to `precision`
decimal places via `Round(coord * 10^p) / 10^p`. -/
def roundCoord (coord : ℚ) (precision : ℕ) : ℚ :=
  (goRound (coord * 10 ^ precision) : ℚ) / 10 ^ precision

/-- A row of the `locations` table (server.go:390-401):
`lat`, `lng` of the first observation, the rounded grouping key
(`UNIQUE(lat_rounded, lng_rounded)`), and the visitor count. -/
structure LocRow where
  lat : ℚ
  lng : ℚ
  latRounded : ℚ
  lngRounded : ℚ
  visitorCount : ℤ
deriving DecidableEq

/-- A row of the `visitors` table (server.go:410-417): the opaque
visitor identity (`UNIQUE`) and the last registered grouping key. -/
structure VisRow where
  visitorId : String
  latRounded : ℚ
  lngRounded : ℚ
deriving DecidableEq

/-- The durable SQLite state: the two tables the accounting code touches. -/
structure DB where
  locations : List LocRow
  visitors : List VisRow
deriving DecidableEq

/-- `LocationResponse` (server.go:27-31). -/
structure LocationResponse where
  added : Bool
  isFirst : Bool
  visitorCount : ℤ
deriving DecidableEq

deriving instance DecidableEq for Except

/-- `checkVisitorExists` (server.go:512-522): `SELECT lat_rounded,
lng_rounded FROM visitors WHERE visitor_id = ?`; `ErrNoRows` becomes
`none`. -/
def checkVisitorExists (db : DB) (visitorID : String) : Option (ℚ × ℚ) :=
  (db.visitors.find? (fun v => v.visitorId == visitorID)).map
    (fun v => (v.latRounded, v.lngRounded))

/-- `SELECT visitor_count FROM locations WHERE lat_rounded = ? AND
lng_rounded = ?` (server.go:549, 587). -/
def selectLocCount (db : DB) (latR lngR : ℚ) : Option ℤ :=
  (db.locations.find? (fun r => decide (r.latRounded = latR ∧ r.lngRounded = lngR))).map
    (fun r => r.visitorCount)

/-- `INSERT OR IGNORE INTO locations ... VALUES (?, ?, ?, ?, 1)`
(server.go:560-563): ignored when a row with the same rounded key
exists; the second component is `RowsAffected`. -/
def insertOrIgnoreLocation (db : DB) (lat lng latR lngR : ℚ) : DB × ℕ :=
  if db.locations.any (fun r => decide (r.latRounded = latR ∧ r.lngRounded = lngR)) then
    (db, 0)
  else
    ({ db with locations := db.locations ++ [⟨lat, lng, latR, lngR, 1⟩] }, 1)

/-- `UPDATE locations SET visitor_count = visitor_count + 1 WHERE
lat_rounded = ? AND lng_rounded = ?` (server.go:580). -/
def incrementLocationCount (db : DB) (latR lngR : ℚ) : DB :=
  { db with
    locations := db.locations.map (fun r =>
      if r.latRounded = latR ∧ r.lngRounded = lngR then
        { r with visitorCount := r.visitorCount + 1 }
      else r) }

/-- `addOrUpdateVisitor` (server.go:525-532): `INSERT INTO visitors ...
ON CONFLICT(visitor_id) DO UPDATE SET lat_rounded = ?, lng_rounded = ?`. -/
def addOrUpdateVisitor (db : DB) (visitorID : String) (latR lngR : ℚ) : DB :=
  if db.visitors.any (fun v => v.visitorId == visitorID) then
    { db with
      visitors := db.visitors.map (fun v =>
        if v.visitorId == visitorID then
          { v with latRounded := latR, lngRounded := lngR }
        else v) }
  else
    { db with visitors := db.visitors ++ [⟨visitorID, latR, lngR⟩] }

/-- The storage statements `addLocationToDB` issues, in program order;
a failure oracle over these steps models storage errors.  Each SQLite
statement is atomic: a failed statement mutates nothing, a successful
one is fully applied. -/
inductive DBStep where
  | checkVisitor
  | selectRepeat
  | insertLoc
  | updateLoc
  | selectAfter
  | upsertVisitor
deriving DecidableEq

/-- Core of `addLocationToDB` after the repeat-visit check
(server.go:559-604): insert-or-ignore, then either report the first
visit or increment and re-read the count, and finally record the
visitor.  On a storage error the call returns the error together with
the durable state as mutated so far (the Go code has no transaction:
each `db.Exec`/`QueryRow` autocommits). -/
def addLocCoreE (fail : DBStep → Bool) (db : DB) (lat lng latR lngR : ℚ)
    (visitorID : String) : Except Unit LocationResponse × DB :=
  if fail .insertLoc then (.error (), db)
  else
    let ins := insertOrIgnoreLocation db lat lng latR lngR
    if 0 < ins.2 then
      if fail .upsertVisitor then (.error (), ins.1)
      else (.ok ⟨true, true, 1⟩, addOrUpdateVisitor ins.1 visitorID latR lngR)
    else
      if fail .updateLoc then (.error (), ins.1)
      else
        let db2 := incrementLocationCount ins.1 latR lngR
        if fail .selectAfter then (.error (), db2)
        else
          match selectLocCount db2 latR lngR with
          | none => (.error (), db2)
          | some c =>
            if fail .upsertVisitor then (.error (), db2)
            else (.ok ⟨false, false, c⟩, addOrUpdateVisitor db2 visitorID latR lngR)

/-- `addLocationToDB` (server.go:534-604) with the failure oracle:
round the coordinates, check for a same-place repeat visit by the same
visitor (no mutation), otherwise run the insert/increment core. -/
def addLocationToDBE (fail : DBStep → Bool) (db : DB) (lat lng : ℚ)
    (visitorID : String) : Except Unit LocationResponse × DB :=
  let latRounded := roundCoord lat 2
  let lngRounded := roundCoord lng 2
  if fail .checkVisitor then (.error (), db)
  else
    match checkVisitorExists db visitorID with
    | some (oldLat, oldLng) =>
      if oldLat = latRounded ∧ oldLng = lngRounded then
        if fail .selectRepeat then (.error (), db)
        else (.ok ⟨false, false, (selectLocCount db latRounded lngRounded).getD 0⟩, db)
      else addLocCoreE fail db lat lng latRounded lngRounded visitorID
    | none => addLocCoreE fail db lat lng latRounded lngRounded visitorID

/-- `addLocationToDB` on error-free storage. -/
def addLocationToDB (db : DB) (lat lng : ℚ) (visitorID : String) :
    Except Unit LocationResponse × DB :=
  addLocationToDBE (fun _ => false) db lat lng visitorID

/-- `CursorPosition` (server.go:59-63). -/
structure CursorPosition where
  x : ℚ
  y : ℚ
  location : String
deriving DecidableEq

/-- `PingData` (server.go:66-72). -/
structure PingData where
  ip : String
  location : String
  lat : ℚ
  lng : ℚ
  timestamp : ℤ
deriving DecidableEq

/-- A marshalled websocket message as it sits in a `Send` channel.
`move` and `ping` record the broadcast payloads that matter here; any
other marshalled frame is `text`. -/
inductive Msg where
  | move (senderId : String) (position : CursorPosition)
  | ping (senderId : String) (ping : PingData)
  | text (payload : String)
deriving DecidableEq

/-- `Client` (server.go:86-92): identity, last cursor position, and the
buffered outbound channel `Send` modelled as its queue contents. -/
structure Client where
  id : String
  position : Option CursorPosition
  send : List Msg
deriving DecidableEq

/-- Capacity of a client's `Send` channel: `make(chan []byte, 256)`
(server.go:208). -/
def sendCap : ℕ := 256

/-- The `broadcast` case of `Hub.run` (server.go:164-174): for each
registered client try a non-blocking send; on a full queue, close the
channel and delete the client from the registry.  Returns the new
registry and the ids whose channel was closed. -/
def hubBroadcastStep : List Client → Msg → List Client × List String
  | [], _ => ([], [])
  | c :: rest, message =>
    let tail := hubBroadcastStep rest message
    if c.send.length < sendCap then
      ({ c with send := c.send ++ [message] } :: tail.1, tail.2)
    else
      (tail.1, c.id :: tail.2)

/-- The locked section of the `unregister` case of `Hub.run`
(server.go:149-155): delete and close only when the id is present.
The boolean records whether `close(client.Send)` ran. -/
def hubUnregisterStep (clients : List Client) (cid : String) : List Client × Bool :=
  if clients.any (fun c => c.id == cid) then
    (clients.filter (fun c => c.id != cid), true)
  else
    (clients, false)

/-- `Hub.broadcastToOthers` (server.go:179-191): non-blocking send to
every client except the sender; a full queue just drops the message. -/
def broadcastToOthers (clients : List Client) (senderID : String) (message : Msg) :
    List Client :=
  clients.map (fun c =>
    if c.id = senderID then c
    else if c.send.length < sendCap then { c with send := c.send ++ [message] }
    else c)

/-- The whole `unregister` case of `Hub.run` (server.go:148-162): the
locked delete/close followed by the "leave" broadcast to the others. -/
def hubUnregister (clients : List Client) (cid : String) (leaveMsg : Msg) :
    List Client × Bool :=
  ((broadcastToOthers (hubUnregisterStep clients cid).1 cid leaveMsg),
    (hubUnregisterStep clients cid).2)

/-- The `"move"` branch of `Client.readPump` (server.go:250-265): store
the sender's new position in the registry, then broadcast the move to
the others. -/
def handleMove (clients : List Client) (senderID : String) (position : CursorPosition) :
    List Client :=
  broadcastToOthers
    (clients.map (fun c =>
      if c.id = senderID then { c with position := some position } else c))
    senderID (Msg.move senderID position)

/-- The ping-history update in the `"ping"` branch of `Client.readPump`
(server.go:270-276): append, then keep only the last 10. -/
def recordPing (recentPings : List PingData) (p : PingData) : List PingData :=
  let l := recentPings ++ [p]
  if 10 < l.length then l.drop (l.length - 10) else l

/-- The two modes of `sync.RWMutex`: `Lock` and `RLock`. -/
inductive LockMode where
  | exclusive
  | shared
deriving DecidableEq

/-- The critical sections of the hub code that touch `Hub.clients` or
`Hub.recentPings`, by the source location that takes `Hub.mutex`. -/
inductive HubSection where
  /-- `Hub.run` register case, insertion block (server.go:116-119). -/
  | registerInsert
  /-- `Hub.run` register case, snapshot read (server.go:122-131). -/
  | registerSnapshot
  /-- `Hub.run` unregister case, delete/close block (server.go:149-155). -/
  | unregisterRemove
  /-- `Hub.run` broadcast case, deliver-or-evict loop (server.go:165-174). -/
  | broadcastDeliverEvict
  /-- `Hub.broadcastToOthers`, registry scan (server.go:180-190). -/
  | broadcastToOthersScan
  /-- `Client.readPump` move branch, position write (server.go:252-256). -/
  | movePositionWrite
  /-- `Client.readPump` ping branch, history write (server.go:271-276). -/
  | pingHistoryWrite
deriving DecidableEq

/-- Which mutex mode each section acquires, read off the source. -/
def lockModeOf : HubSection → LockMode
  | .registerInsert => .exclusive
  | .registerSnapshot => .shared
  | .unregisterRemove => .exclusive
  | .broadcastDeliverEvict => .shared
  | .broadcastToOthersScan => .shared
  | .movePositionWrite => .exclusive
  | .pingHistoryWrite => .exclusive

/-- Whether the section mutates registry membership (writes or deletes
entries of `Hub.clients`, or closes a `Send` channel). -/
def mutatesMembership : HubSection → Bool
  | .registerInsert => true
  | .unregisterRemove => true
  | .broadcastDeliverEvict => true
  | _ => false

/-- `sync.RWMutex` admits two holders at once iff both took the read
lock. -/
def mayHoldTogether (a b : HubSection) : Bool :=
  decide (lockModeOf a = .shared) && decide (lockModeOf b = .shared)

/-- `goRound` fixes integers. -/
theorem goRound_intCast (k : ℤ) : goRound (k : ℚ) = k := by
  unfold goRound
  by_cases h : (0 : ℚ) ≤ (k : ℚ)
  · rw [if_pos h, Int.floor_int_add k (1 / 2)]
    norm_num
  · rw [if_neg h]
    have h2 : -(k : ℚ) + 1 / 2 = ((-k : ℤ) : ℚ) + 1 / 2 := by push_cast; ring
    rw [h2, Int.floor_int_add (-k) (1 / 2)]
    norm_num

/-- Any rational strictly within half a unit of an integer rounds to it. -/
theorem goRound_eq_of_near (x : ℚ) (c : ℤ) (h : |x - c| < 1 / 2) : goRound x = c := by
  rw [abs_sub_lt_iff] at h
  obtain ⟨h1, h2⟩ := h
  unfold goRound
  by_cases hx : 0 ≤ x
  · rw [if_pos hx, Int.floor_eq_iff]
    constructor
    · linarith
    · linarith
  · rw [if_neg hx]
    push_neg at hx
    have hc : (c : ℚ) ≤ 0 := by
      by_contra hc
      push_neg at hc
      have : (1 : ℚ) ≤ c := by exact_mod_cast hc
      linarith
    have hfl : ⌊-x + 1 / 2⌋ = -c := by
      rw [Int.floor_eq_iff]
      constructor
      · push_cast; linarith
      · push_cast; linarith
    rw [hfl]; ring

/-- A coordinate strictly within `0.005` of the grid point `c / 100`
rounds to that grid point at precision 2. -/
theorem roundCoord_eq_of_near (x : ℚ) (c : ℤ) (h : |x - c / 100| < 1 / 200) :
    roundCoord x 2 = (c : ℚ) / 100 := by
  have h100 : |x * 10 ^ 2 - c| < 1 / 2 := by
    have hsplit : x * 10 ^ 2 - c = (x - c / 100) * 100 := by ring
    rw [hsplit, abs_mul, abs_of_nonneg (by norm_num : (0:ℚ) ≤ 100)]
    linarith
  unfold roundCoord
  rw [goRound_eq_of_near _ _ h100]
  norm_num

/-- Unfolding `roundCoord` at precision 2. -/
theorem roundCoord_two (x : ℚ) : roundCoord x 2 = (goRound (x * 100) : ℚ) / 100 := by
  unfold roundCoord
  norm_num

/-- After `addOrUpdateVisitor`, the visitor's row points at the new key. -/
theorem checkVisitorExists_addOrUpdateVisitor (db : DB) (vid : String) (a b : ℚ) :
    checkVisitorExists (addOrUpdateVisitor db vid a b) vid = some (a, b) := by
  unfold checkVisitorExists addOrUpdateVisitor
  by_cases hany : db.visitors.any (fun v => v.visitorId == vid) = true
  · rw [if_pos hany]
    simp only [List.find?_map]
    have hcomp : ((fun v : VisRow => v.visitorId == vid) ∘
        (fun v : VisRow =>
          if v.visitorId == vid then { v with latRounded := a, lngRounded := b } else v))
        = fun v : VisRow => v.visitorId == vid := by
      funext v
      by_cases h : (v.visitorId == vid) = true
      · simp [Function.comp, h]
      · simp [Function.comp, h]
    rw [hcomp]
    rw [List.any_eq_true] at hany
    obtain ⟨w, hwmem, hw⟩ := hany
    have hsome : (db.visitors.find? (fun v => v.visitorId == vid)).isSome :=
      List.find?_isSome.mpr ⟨w, hwmem, hw⟩
    obtain ⟨u, hu⟩ := Option.isSome_iff_exists.mp hsome
    have hpu : u.visitorId = vid := by simpa using List.find?_some hu
    rw [hu]
    simp [hpu]
  · rw [if_neg hany]
    have hf : db.visitors.any (fun v => v.visitorId == vid) = false :=
      Bool.eq_false_iff.mpr hany
    have hnone : db.visitors.find? (fun v => v.visitorId == vid) = none :=
      List.find?_eq_none.mpr (List.any_eq_false.mp hf)
    simp [List.find?_append, hnone, List.find?]

/-- Incrementing a key's count shifts exactly that key's
`SELECT visitor_count` result by one. -/
theorem selectLocCount_increment (db : DB) (a b : ℚ) :
    selectLocCount (incrementLocationCount db a b) a b
      = (selectLocCount db a b).map (fun c => c + 1) := by
  unfold selectLocCount incrementLocationCount
  simp only [List.find?_map]
  have hcomp : ((fun r : LocRow => decide (r.latRounded = a ∧ r.lngRounded = b)) ∘
      (fun r : LocRow =>
        if r.latRounded = a ∧ r.lngRounded = b then
          { r with visitorCount := r.visitorCount + 1 }
        else r))
      = fun r : LocRow => decide (r.latRounded = a ∧ r.lngRounded = b) := by
    funext r
    by_cases h : r.latRounded = a ∧ r.lngRounded = b
    · simp [Function.comp, h]
    · simp [Function.comp, h]
  rw [hcomp]
  cases hf : db.locations.find? (fun r => decide (r.latRounded = a ∧ r.lngRounded = b)) with
  | none => simp
  | some r =>
    have hpr := List.find?_some hf
    rw [decide_eq_true_iff] at hpr
    simp [hpr]

/-- A key present in the table has a `SELECT visitor_count` result. -/
theorem selectLocCount_eq_some_of_any (db : DB) (a b : ℚ)
    (h : db.locations.any (fun r => decide (r.latRounded = a ∧ r.lngRounded = b)) = true) :
    ∃ c, selectLocCount db a b = some c := by
  unfold selectLocCount
  rw [List.any_eq_true] at h
  have hsome : (db.locations.find? (fun r => decide (r.latRounded = a ∧ r.lngRounded = b))).isSome :=
    List.find?_isSome.mpr h
  obtain ⟨u, hu⟩ := Option.isSome_iff_exists.mp hsome
  exact ⟨u.visitorCount, by rw [hu]; rfl⟩

/-- `SELECT visitor_count` finds nothing exactly when the key has no row. -/
theorem selectLocCount_eq_none_iff (db : DB) (a b : ℚ) :
    selectLocCount db a b = none
      ↔ db.locations.any (fun r => decide (r.latRounded = a ∧ r.lngRounded = b)) = false := by
  simp [selectLocCount, Option.map_eq_none', List.find?_eq_none, List.any_eq_false]

/-- Error-free core, fresh key: the location row is created with count 1
and the caller is the first visitor. -/
theorem addLocCore_insert (db : DB) (lat lng a b : ℚ) (vid : String)
    (hnone : db.locations.any (fun r => decide (r.latRounded = a ∧ r.lngRounded = b)) = false) :
    addLocCoreE (fun _ => false) db lat lng a b vid
      = (.ok ⟨true, true, 1⟩,
         addOrUpdateVisitor { db with locations := db.locations ++ [⟨lat, lng, a, b, 1⟩] } vid a b) := by
  have hnone' : ¬ ∃ x ∈ db.locations, x.latRounded = a ∧ x.lngRounded = b := by
    simpa using hnone
  unfold addLocCoreE insertOrIgnoreLocation
  simp [hnone']

/-- Error-free core, existing key: the count is incremented and returned. -/
theorem addLocCore_increment (db : DB) (lat lng a b : ℚ) (vid : String) (c : ℤ)
    (hsome : selectLocCount db a b = some c) :
    addLocCoreE (fun _ => false) db lat lng a b vid
      = (.ok ⟨false, false, c + 1⟩,
         addOrUpdateVisitor (incrementLocationCount db a b) vid a b) := by
  have hany : db.locations.any (fun r => decide (r.latRounded = a ∧ r.lngRounded = b)) = true := by
    by_contra hne
    have hf := Bool.eq_false_iff.mpr hne
    rw [← selectLocCount_eq_none_iff] at hf
    rw [hsome] at hf
    exact Option.noConfusion hf
  have hafter : selectLocCount (incrementLocationCount db a b) a b = some (c + 1) := by
    rw [selectLocCount_increment, hsome]
    rfl
  have hany' : ∃ x ∈ db.locations, x.latRounded = a ∧ x.lngRounded = b := by
    simpa using hany
  unfold addLocCoreE insertOrIgnoreLocation
  simp [hany', hafter]

/-- `INSERT OR IGNORE` when the key is already present: no change,
zero rows affected. -/
theorem insertOrIgnore_pos (db : DB) (lat lng a b : ℚ)
    (h : db.locations.any (fun r => decide (r.latRounded = a ∧ r.lngRounded = b)) = true) :
    insertOrIgnoreLocation db lat lng a b = (db, 0) := by
  unfold insertOrIgnoreLocation
  rw [h]
  simp

/-- `INSERT OR IGNORE` on a fresh key: the row is appended with count 1,
one row affected. -/
theorem insertOrIgnore_neg (db : DB) (lat lng a b : ℚ)
    (h : db.locations.any (fun r => decide (r.latRounded = a ∧ r.lngRounded = b)) = false) :
    insertOrIgnoreLocation db lat lng a b
      = ({ db with locations := db.locations ++ [⟨lat, lng, a, b, 1⟩] }, 1) := by
  unfold insertOrIgnoreLocation
  rw [h]
  simp

/-- The visitor upsert never touches the `locations` table. -/
theorem addOrUpdateVisitor_locations (d : DB) (vid : String) (a b : ℚ) :
    (addOrUpdateVisitor d vid a b).locations = d.locations := by
  unfold addOrUpdateVisitor
  split <;> rfl

/-- The location increment never touches the `visitors` table. -/
theorem incrementLocationCount_visitors (d : DB) (a b : ℚ) :
    (incrementLocationCount d a b).visitors = d.visitors := rfl

/-- The visitor upsert depends only on the `visitors` table. -/
theorem addOrUpdateVisitor_visitors_congr (d1 d2 : DB) (vid : String) (a b : ℚ)
    (h : d1.visitors = d2.visitors) :
    (addOrUpdateVisitor d1 vid a b).visitors = (addOrUpdateVisitor d2 vid a b).visitors := by
  unfold addOrUpdateVisitor
  rw [h]
  by_cases hc : d2.visitors.any (fun v => v.visitorId == vid) = true
  · simp [hc]
  · simp [hc]

/-- The same-place repeat branch of `addLocationToDB`: current count
returned, nothing mutated. -/
theorem addLocationToDB_repeat (db : DB) (lat lng : ℚ) (vid : String)
    (h : checkVisitorExists db vid = some (roundCoord lat 2, roundCoord lng 2)) :
    addLocationToDB db lat lng vid
      = (.ok ⟨false, false, (selectLocCount db (roundCoord lat 2) (roundCoord lng 2)).getD 0⟩, db) := by
  unfold addLocationToDB addLocationToDBE
  rw [h]
  simp

/-- When the visitor is absent or moved, `addLocationToDB` runs the
insert/increment core at the rounded key. -/
theorem addLocationToDB_core (db : DB) (lat lng : ℚ) (vid : String)
    (h : checkVisitorExists db vid ≠ some (roundCoord lat 2, roundCoord lng 2)) :
    addLocationToDB db lat lng vid
      = addLocCoreE (fun _ => false) db lat lng (roundCoord lat 2) (roundCoord lng 2) vid := by
  unfold addLocationToDB addLocationToDBE
  cases hcv : checkVisitorExists db vid with
  | none => simp
  | some p =>
    obtain ⟨o1, o2⟩ := p
    have hne : ¬ (o1 = roundCoord lat 2 ∧ o2 = roundCoord lng 2) := by
      intro hand
      exact h (by rw [hcv, hand.1, hand.2])
    simp [hne]

/-- After any error-free call, the visitor's ledger row points at the
key of the coordinates just reported. -/
theorem checkVisitorExists_after_add (db : DB) (lat lng : ℚ) (vid : String) :
    checkVisitorExists (addLocationToDB db lat lng vid).2 vid
      = some (roundCoord lat 2, roundCoord lng 2) := by
  by_cases hrep : checkVisitorExists db vid = some (roundCoord lat 2, roundCoord lng 2)
  · rw [addLocationToDB_repeat db lat lng vid hrep]
    exact hrep
  · rw [addLocationToDB_core db lat lng vid hrep]
    cases hany : db.locations.any
        (fun r => decide (r.latRounded = roundCoord lat 2 ∧ r.lngRounded = roundCoord lng 2)) with
    | false =>
      rw [addLocCore_insert db lat lng _ _ vid hany]
      exact checkVisitorExists_addOrUpdateVisitor _ vid _ _
    | true =>
      obtain ⟨c, hc⟩ := selectLocCount_eq_some_of_any db _ _ hany
      rw [addLocCore_increment db lat lng _ _ vid c hc]
      exact checkVisitorExists_addOrUpdateVisitor _ vid _ _

/-- Shape of the insert/increment core under any failure oracle: the
`locations` table is unchanged, or has exactly the insert applied, or
exactly the increment applied; the `visitors` table is unchanged or has
exactly the upsert applied; and a failing call never has the upsert. -/
theorem addLocCoreE_shape (fail : DBStep → Bool) (db : DB) (lat lng a b : ℚ) (vid : String) :
    ((addLocCoreE fail db lat lng a b vid).2.locations = db.locations
      ∨ (addLocCoreE fail db lat lng a b vid).2.locations = db.locations ++ [⟨lat, lng, a, b, 1⟩]
      ∨ (addLocCoreE fail db lat lng a b vid).2.locations = (incrementLocationCount db a b).locations)
    ∧ ((addLocCoreE fail db lat lng a b vid).2.visitors = db.visitors
      ∨ (addLocCoreE fail db lat lng a b vid).2.visitors = (addOrUpdateVisitor db vid a b).visitors)
    ∧ ((addLocCoreE fail db lat lng a b vid).1 = .error ()
      → (addLocCoreE fail db lat lng a b vid).2.visitors = db.visitors) := by
  unfold addLocCoreE
  cases h1 : fail DBStep.insertLoc with
  | true => simp
  | false =>
    simp only [Bool.false_eq_true, if_false]
    cases hany : db.locations.any (fun r => decide (r.latRounded = a ∧ r.lngRounded = b)) with
    | true =>
      rw [insertOrIgnore_pos db lat lng a b hany]
      cases h2 : fail DBStep.updateLoc with
      | true => simp
      | false =>
        simp only [Bool.false_eq_true, if_false]
        cases h3 : fail DBStep.selectAfter with
        | true => simp [incrementLocationCount_visitors]
        | false =>
          simp only [Bool.false_eq_true, if_false]
          cases hsel : selectLocCount (incrementLocationCount db a b) a b with
          | none => simp [incrementLocationCount_visitors]
          | some c =>
            cases h4 : fail DBStep.upsertVisitor with
            | true => simp [incrementLocationCount_visitors]
            | false =>
              simp only [Bool.false_eq_true, if_false]
              refine ⟨Or.inr (Or.inr ?_), Or.inr ?_, ?_⟩
              · simp [addOrUpdateVisitor_locations]
              · exact addOrUpdateVisitor_visitors_congr _ db vid a b
                  (incrementLocationCount_visitors db a b)
              · intro hcon
                simp at hcon
    | false =>
      rw [insertOrIgnore_neg db lat lng a b hany]
      cases h4 : fail DBStep.upsertVisitor with
      | true => simp
      | false =>
        simp only [Bool.false_eq_true, if_false]
        refine ⟨Or.inr (Or.inl ?_), Or.inr ?_, ?_⟩
        · simp [addOrUpdateVisitor_locations]
        · exact addOrUpdateVisitor_visitors_congr _ db vid a b rfl
        · intro hcon
          simp at hcon

/-- C1: if the visitor's last registered grouping key equals the key of
the new coordinates, `addLocationToDB` returns `added=false`,
`isFirst=false` with the location's current count and mutates nothing;
in particular two consecutive identical calls with the same
(visitor, location) yield `added=false`, `isFirst=false` on the second
call and leave the state (hence every count) unchanged. -/
theorem c1_same_place_repeat_no_mutation (db : DB) (lat lng : ℚ) (vid : String) :
    (checkVisitorExists db vid = some (roundCoord lat 2, roundCoord lng 2) →
      addLocationToDB db lat lng vid
        = (.ok ⟨false, false, (selectLocCount db (roundCoord lat 2) (roundCoord lng 2)).getD 0⟩, db))
    ∧ (addLocationToDB (addLocationToDB db lat lng vid).2 lat lng vid).2
        = (addLocationToDB db lat lng vid).2
    ∧ (addLocationToDB (addLocationToDB db lat lng vid).2 lat lng vid).1
        = .ok ⟨false, false,
            (selectLocCount (addLocationToDB db lat lng vid).2
              (roundCoord lat 2) (roundCoord lng 2)).getD 0⟩ := by
  have h2 := addLocationToDB_repeat (addLocationToDB db lat lng vid).2 lat lng vid
    (checkVisitorExists_after_add db lat lng vid)
  refine ⟨fun h => addLocationToDB_repeat db lat lng vid h, ?_, ?_⟩
  · rw [h2]
  · rw [h2]

unseal Rat.mul Rat.inv Rat.add Rat.sub in
theorem c1_witness :
    addLocationToDB ⟨[], [⟨"v", 3777 / 100, -12242 / 100⟩]⟩
        (377749 / 10000) (-1224194 / 10000) "v"
      = (.ok ⟨false, false, 0⟩, ⟨[], [⟨"v", 3777 / 100, -12242 / 100⟩]⟩) := by
  have h := (c1_same_place_repeat_no_mutation ⟨[], [⟨"v", 3777 / 100, -12242 / 100⟩]⟩
      (377749 / 10000) (-1224194 / 10000) "v").1 (by decide)
  rw [h]
  decide

/-- C2: when the call is not a same-place repeat, a fresh key gets a new
record with count 1 and `added=true, isFirst=true, visitorCount=1`;
an existing key is incremented and the post-increment count is returned
with `added=false, isFirst=false`. -/
theorem c2_insert_or_increment (db : DB) (lat lng : ℚ) (vid : String)
    (hv : checkVisitorExists db vid ≠ some (roundCoord lat 2, roundCoord lng 2)) :
    (selectLocCount db (roundCoord lat 2) (roundCoord lng 2) = none →
      addLocationToDB db lat lng vid
        = (.ok ⟨true, true, 1⟩,
           addOrUpdateVisitor
             { db with locations := db.locations
                 ++ [⟨lat, lng, roundCoord lat 2, roundCoord lng 2, 1⟩] }
             vid (roundCoord lat 2) (roundCoord lng 2)))
    ∧ (∀ c, selectLocCount db (roundCoord lat 2) (roundCoord lng 2) = some c →
      addLocationToDB db lat lng vid
        = (.ok ⟨false, false, c + 1⟩,
           addOrUpdateVisitor
             (incrementLocationCount db (roundCoord lat 2) (roundCoord lng 2))
             vid (roundCoord lat 2) (roundCoord lng 2))) := by
  constructor
  · intro hnone
    rw [addLocationToDB_core db lat lng vid hv]
    exact addLocCore_insert db lat lng _ _ vid ((selectLocCount_eq_none_iff db _ _).mp hnone)
  · intro c hc
    rw [addLocationToDB_core db lat lng vid hv]
    exact addLocCore_increment db lat lng _ _ vid c hc

unseal Rat.mul Rat.inv Rat.add Rat.sub in
theorem c2_witness :
    (addLocationToDB ⟨[], []⟩ (377749 / 10000) (-1224194 / 10000) "v1").1
      = .ok ⟨true, true, 1⟩
    ∧ (addLocationToDB ⟨[⟨377749 / 10000, -1224194 / 10000, 3777 / 100, -12242 / 100, 1⟩], []⟩
        (377702 / 10000) (-1224198 / 10000) "v2").1
      = .ok ⟨false, false, 2⟩ := by
  constructor
  · have h := (c2_insert_or_increment ⟨[], []⟩ (377749 / 10000) (-1224194 / 10000) "v1"
        (by decide)).1 (by decide)
    rw [h]
  · have h := (c2_insert_or_increment
        ⟨[⟨377749 / 10000, -1224194 / 10000, 3777 / 100, -12242 / 100, 1⟩], []⟩
        (377702 / 10000) (-1224198 / 10000) "v2" (by decide)).2 1 (by decide)
    rw [h]
    rfl

unseal Rat.mul Rat.inv Rat.add Rat.sub in
/-- C7 counterexample: with an existing record for the key and a
visitor upsert that fails, the call reports a storage error, yet the
location's counter has already been incremented durably — a visible
partial mutation, so the call is not atomic as claimed. -/
theorem c7_counterexample :
    (addLocationToDBE (fun s => decide (s = DBStep.upsertVisitor))
        ⟨[⟨37, -122, 37, -122, 1⟩], []⟩ 37 (-122) "v2").1 = .error ()
    ∧ (addLocationToDBE (fun s => decide (s = DBStep.upsertVisitor))
        ⟨[⟨37, -122, 37, -122, 1⟩], []⟩ 37 (-122) "v2").2
      ≠ ⟨[⟨37, -122, 37, -122, 1⟩], []⟩ := by
  decide

/-- C7 (amended): each storage statement is individually atomic — under
any failure pattern the `locations` table ends unchanged, or with
exactly the key's insert, or exactly its increment, and the `visitors`
table ends unchanged or with exactly the upsert; a failing call never
contains the visitor upsert.  The call as a whole is not transactional:
a location insert/increment that preceded a failing later step remains
visible. -/
theorem c7_statementwise_atomicity (fail : DBStep → Bool) (db : DB) (lat lng : ℚ)
    (vid : String) :
    ((addLocationToDBE fail db lat lng vid).2.locations = db.locations
      ∨ (addLocationToDBE fail db lat lng vid).2.locations
          = db.locations ++ [⟨lat, lng, roundCoord lat 2, roundCoord lng 2, 1⟩]
      ∨ (addLocationToDBE fail db lat lng vid).2.locations
          = (incrementLocationCount db (roundCoord lat 2) (roundCoord lng 2)).locations)
    ∧ ((addLocationToDBE fail db lat lng vid).2.visitors = db.visitors
      ∨ (addLocationToDBE fail db lat lng vid).2.visitors
          = (addOrUpdateVisitor db vid (roundCoord lat 2) (roundCoord lng 2)).visitors)
    ∧ ((addLocationToDBE fail db lat lng vid).1 = .error ()
      → (addLocationToDBE fail db lat lng vid).2.visitors = db.visitors) := by
  unfold addLocationToDBE
  cases h0 : fail DBStep.checkVisitor with
  | true => simp
  | false =>
    simp only [Bool.false_eq_true, if_false]
    cases hcv : checkVisitorExists db vid with
    | none => exact addLocCoreE_shape fail db lat lng _ _ vid
    | some p =>
      obtain ⟨o1, o2⟩ := p
      by_cases hrep : o1 = roundCoord lat 2 ∧ o2 = roundCoord lng 2
      · simp only [hrep, if_true]
        cases h1 : fail DBStep.selectRepeat with
        | true => simp
        | false => simp
      · simp only [if_neg hrep]
        exact addLocCoreE_shape fail db lat lng _ _ vid

unseal Rat.mul Rat.inv Rat.add Rat.sub in
theorem c7_witness :
    (addLocationToDBE (fun s => decide (s = DBStep.selectAfter))
        ⟨[⟨37, -122, 37, -122, 1⟩], []⟩ 37 (-122) "v2").2.visitors = [] :=
  (c7_statementwise_atomicity (fun s => decide (s = DBStep.selectAfter))
      ⟨[⟨37, -122, 37, -122, 1⟩], []⟩ 37 (-122) "v2").2.2 (by decide)

unseal Rat.mul Rat.inv Rat.add Rat.sub in
/-- C8 counterexample: the pairs (0.005, 0) and (0, 0) differ by at most
0.005° in each coordinate, yet their grouping keys differ (0.005 rounds
up to 0.01 while 0 stays 0), so closeness of two pairs to each other
does not give equal keys. -/
theorem c8_counterexample :
    |(1 / 200 : ℚ) - 0| ≤ 5 / 1000 ∧ |(0 : ℚ) - 0| ≤ 5 / 1000
    ∧ (roundCoord (1 / 200) 2, roundCoord 0 2) ≠ (roundCoord 0 2, roundCoord 0 2) := by
  refine ⟨by rw [abs_le]; constructor <;> norm_num, by rw [abs_le]; constructor <;> norm_num, ?_⟩
  intro hpair
  have h1 : roundCoord (1 / 200) 2 = 1 / 100 := by decide
  have h2 : roundCoord 0 2 = 0 := by decide
  rw [h1, h2] at hpair
  have := congrArg Prod.fst hpair
  norm_num at this

/-- C8 (amended): any two coordinate pairs that each lie strictly within
0.005° of a common grid point (a multiple of 0.01° in both coordinates)
receive the identical grouping key, namely that grid point. -/
theorem c8_common_grid_point_same_key (lat1 lng1 lat2 lng2 : ℚ) (cLat cLng : ℤ)
    (hlat1 : |lat1 - cLat / 100| < 1 / 200) (hlat2 : |lat2 - cLat / 100| < 1 / 200)
    (hlng1 : |lng1 - cLng / 100| < 1 / 200) (hlng2 : |lng2 - cLng / 100| < 1 / 200) :
    (roundCoord lat1 2, roundCoord lng1 2) = (roundCoord lat2 2, roundCoord lng2 2) := by
  rw [roundCoord_eq_of_near lat1 cLat hlat1, roundCoord_eq_of_near lat2 cLat hlat2,
    roundCoord_eq_of_near lng1 cLng hlng1, roundCoord_eq_of_near lng2 cLng hlng2]

unseal Rat.mul Rat.inv Rat.add Rat.sub in
theorem c8_witness :
    (roundCoord (1 / 250) 2, roundCoord (1 / 250) 2)
      = (roundCoord (-(1 / 250)) 2, roundCoord (-(1 / 250)) 2) :=
  c8_common_grid_point_same_key (1 / 250) (1 / 250) (-(1 / 250)) (-(1 / 250)) 0 0
    (by decide) (by decide) (by decide) (by decide)

/-- C10: `roundCoord` at precision 2 is idempotent — every already
rounded coordinate is a fixed point of the rounding, so the stored
`lat_rounded`/`lng_rounded` values re-round to themselves. -/
theorem c10_roundCoord_idempotent (x : ℚ) :
    roundCoord (roundCoord x 2) 2 = roundCoord x 2 := by
  rw [roundCoord_two x, roundCoord_two]
  have hmul : (goRound (x * 100) : ℚ) / 100 * 100 = (goRound (x * 100) : ℚ) := by
    field_simp
  rw [hmul, goRound_intCast]

/-- `recordPing` is "append, then keep the last 10", uniformly. -/
theorem recordPing_eq_drop (l : List PingData) (p : PingData) :
    recordPing l p = (l ++ [p]).drop ((l ++ [p]).length - 10) := by
  unfold recordPing
  by_cases h : 10 < (l ++ [p]).length
  · rw [if_pos h]
  · rw [if_neg h]
    rw [Nat.sub_eq_zero_of_le (Nat.le_of_not_lt h), List.drop_zero]

/-- Folding `recordPing` from any short enough buffer keeps exactly the
last 10 of everything seen. -/
theorem foldl_recordPing (ps : List PingData) (init : List PingData)
    (h : init.length ≤ 10) :
    List.foldl recordPing init ps = (init ++ ps).drop ((init ++ ps).length - 10) := by
  induction ps generalizing init with
  | nil =>
    rw [List.foldl_nil, List.append_nil, Nat.sub_eq_zero_of_le h, List.drop_zero]
  | cons p ps ih =>
    rw [List.foldl_cons, ih (recordPing init p)
      (by rw [recordPing_eq_drop]; simp; omega)]
    rw [recordPing_eq_drop]
    rw [List.append_cons init p ps]
    rw [← List.drop_append_of_le_length (Nat.sub_le (init ++ [p]).length 10)]
    rw [List.drop_drop]
    congr 1
    simp only [List.length_append, List.length_drop, List.length_cons, List.length_singleton]
    omega

/-- C4: after any sequence of `recordPing` operations starting from the
empty buffer, the ping history holds exactly the most recent
`min(n, 10)` pings in arrival order (oldest evicted first), and so
never exceeds 10 entries; in particular 15 sequential insertions leave
exactly the last 10 in order. -/
theorem c4_ping_history_last_ten (ps : List PingData) :
    List.foldl recordPing [] ps = ps.drop (ps.length - 10)
    ∧ (List.foldl recordPing [] ps).length = min ps.length 10 := by
  have hfold := foldl_recordPing ps [] (by simp)
  rw [List.nil_append] at hfold
  refine ⟨hfold, ?_⟩
  rw [hfold, List.length_drop]
  omega

/-- `broadcastToOthers` never changes who is registered. -/
theorem broadcastToOthers_map_id (clients : List Client) (senderID : String) (m : Msg) :
    (broadcastToOthers clients senderID m).map (fun c => c.id)
      = clients.map (fun c => c.id) := by
  unfold broadcastToOthers
  rw [List.map_map]
  apply List.map_congr_left
  intro c _
  by_cases h1 : c.id = senderID
  · simp [h1]
  · by_cases h2 : c.send.length < sendCap
    · simp [h1, h2]
    · simp [h1, h2]

/-- After filtering an id out, no registered client carries it. -/
theorem any_filter_id_false (clients : List Client) (cid : String) :
    (clients.filter (fun c => c.id != cid)).any (fun c => c.id == cid) = false := by
  rw [List.any_eq_false]
  intro x hx hbeq
  rw [List.mem_filter] at hx
  exact (bne_iff_ne.mp hx.2) (beq_iff_eq.mp hbeq)

/-- After the locked unregister section, the id is gone. -/
theorem hubUnregisterStep_any_false (clients : List Client) (cid : String) :
    ((hubUnregisterStep clients cid).1).any (fun c => c.id == cid) = false := by
  by_cases hany : clients.any (fun c => c.id == cid) = true
  · simp only [hubUnregisterStep, hany, if_true]
    exact any_filter_id_false clients cid
  · have hf : clients.any (fun c => c.id == cid) = false := Bool.eq_false_iff.mpr hany
    simp only [hubUnregisterStep, hf, Bool.false_eq_true, if_false]

/-- `broadcastToOthers` preserves the presence test of every id. -/
theorem any_broadcastToOthers (clients : List Client) (senderID : String) (m : Msg)
    (cid : String) :
    (broadcastToOthers clients senderID m).any (fun c => c.id == cid)
      = clients.any (fun c => c.id == cid) := by
  unfold broadcastToOthers
  rw [List.any_map]
  congr 1
  funext c
  by_cases h1 : c.id = senderID
  · simp [Function.comp, h1]
  · by_cases h2 : c.send.length < sendCap
    · simp [Function.comp, h1, h2]
    · simp [Function.comp, h1, h2]

/-- C3: a broadcast delivers the message to exactly the live sessions
whose outbound queue has room (appended at the tail, without blocking),
while every session whose queue is full at delivery time is closed and
removed from the registry in that same operation; with distinct session
ids, no entry for an evicted session remains. -/
theorem c3_broadcast_evicts_full_queues (clients : List Client) (message : Msg) :
    (hubBroadcastStep clients message).1
        = (clients.filter (fun c => decide (c.send.length < sendCap))).map
            (fun c => { c with send := c.send ++ [message] })
    ∧ (hubBroadcastStep clients message).2
        = (clients.filter (fun c => !decide (c.send.length < sendCap))).map (fun c => c.id)
    ∧ ((clients.map (fun c => c.id)).Nodup →
        ∀ c ∈ clients, ¬ c.send.length < sendCap →
          c.id ∉ (hubBroadcastStep clients message).1.map (fun c => c.id)) := by
  have hmain : ∀ cs : List Client,
      (hubBroadcastStep cs message).1
          = (cs.filter (fun c => decide (c.send.length < sendCap))).map
              (fun c => { c with send := c.send ++ [message] })
      ∧ (hubBroadcastStep cs message).2
          = (cs.filter (fun c => !decide (c.send.length < sendCap))).map (fun c => c.id) := by
    intro cs
    induction cs with
    | nil => exact ⟨rfl, rfl⟩
    | cons c rest ih =>
      by_cases hc : c.send.length < sendCap
      · simp [hubBroadcastStep, hc, ih.1, ih.2, List.filter_cons]
      · simp [hubBroadcastStep, hc, ih.1, ih.2, List.filter_cons]
  refine ⟨(hmain clients).1, (hmain clients).2, ?_⟩
  intro hnodup c hcmem hcfull hid
  rw [(hmain clients).1, List.map_map] at hid
  obtain ⟨d, hdmem, hdid⟩ := List.mem_map.mp hid
  have hdclients : d ∈ clients := (List.mem_filter.mp hdmem).1
  have hdroom : decide (d.send.length < sendCap) = true := (List.mem_filter.mp hdmem).2
  have hdc : d = c :=
    List.inj_on_of_nodup_map hnodup hdclients hcmem (by simpa using hdid)
  rw [hdc] at hdroom
  exact hcfull (by simpa using hdroom)

set_option maxRecDepth 10000 in
theorem c3_witness :
    ("a" : String) ∉ ((hubBroadcastStep
        [⟨"a", none, List.replicate sendCap (Msg.text "x")⟩, ⟨"b", none, []⟩]
        (Msg.text "m")).1.map (fun c => c.id)) :=
  (c3_broadcast_evicts_full_queues
      [⟨"a", none, List.replicate sendCap (Msg.text "x")⟩, ⟨"b", none, []⟩]
      (Msg.text "m")).2.2 (by decide)
    ⟨"a", none, List.replicate sendCap (Msg.text "x")⟩ (by decide) (by decide)

set_option maxRecDepth 10000 in
/-- C5 counterexample: a second live session with a full outbound queue
does not receive the sender's move broadcast (non-blocking send just
drops it), so the move is not delivered to every other live session. -/
theorem c5_counterexample :
    handleMove
        [{ id := "a", position := none, send := [] },
         { id := "b", position := none, send := List.replicate sendCap (Msg.text "x") }]
        "a" { x := 0, y := 0, location := "" }
      = [{ id := "a", position := some { x := 0, y := 0, location := "" }, send := [] },
         { id := "b", position := none, send := List.replicate sendCap (Msg.text "x") }] := by
  decide

/-- C5 (amended): a move update stores the new position on the sender
and enqueues the move event to exactly the other live sessions whose
outbound queue has room; full queues are skipped, and the sender never
receives its own move (no echo). -/
theorem c5_move_no_echo (clients : List Client) (senderID : String) (pos : CursorPosition) :
    handleMove clients senderID pos
      = clients.map (fun c =>
          if c.id = senderID then { c with position := some pos }
          else if c.send.length < sendCap then
            { c with send := c.send ++ [Msg.move senderID pos] }
          else c) := by
  unfold handleMove broadcastToOthers
  rw [List.map_map]
  apply List.map_congr_left
  intro c _
  by_cases h1 : c.id = senderID
  · simp [Function.comp, h1]
  · by_cases h2 : c.send.length < sendCap
    · simp [Function.comp, h1, h2]
    · simp [Function.comp, h1, h2]

/-- C6: the unregister path is idempotent — unregistering an id absent
from the live set changes nothing and closes no queue; and running the
whole unregister operation a second time leaves the live set exactly as
after the first run, again closing no queue. -/
theorem c6_unregister_idempotent (clients : List Client) (cid : String) (leaveMsg : Msg) :
    (clients.all (fun c => c.id != cid) = true →
        hubUnregisterStep clients cid = (clients, false))
    ∧ hubUnregisterStep (hubUnregisterStep clients cid).1 cid
        = ((hubUnregisterStep clients cid).1, false)
    ∧ (hubUnregister (hubUnregister clients cid leaveMsg).1 cid leaveMsg).1.map (fun c => c.id)
        = (hubUnregister clients cid leaveMsg).1.map (fun c => c.id)
    ∧ (hubUnregister (hubUnregister clients cid leaveMsg).1 cid leaveMsg).2 = false := by
  have hstep : ∀ cs : List Client, (cs.any (fun c => c.id == cid)) = false →
      hubUnregisterStep cs cid = (cs, false) := by
    intro cs hf
    simp only [hubUnregisterStep, hf, Bool.false_eq_true, if_false]
  have habsent : clients.all (fun c => c.id != cid) = true →
      clients.any (fun c => c.id == cid) = false := by
    intro hall
    rw [List.any_eq_false]
    intro x hx hbeq
    exact (bne_iff_ne.mp (List.all_eq_true.mp hall x hx)) (beq_iff_eq.mp hbeq)
  have hsecond : hubUnregisterStep (hubUnregisterStep clients cid).1 cid
      = ((hubUnregisterStep clients cid).1, false) :=
    hstep _ (hubUnregisterStep_any_false clients cid)
  have hbroadany : (broadcastToOthers (hubUnregisterStep clients cid).1 cid leaveMsg).any
      (fun c => c.id == cid) = false := by
    rw [any_broadcastToOthers]
    exact hubUnregisterStep_any_false clients cid
  have hfull : hubUnregisterStep (hubUnregister clients cid leaveMsg).1 cid
      = ((hubUnregister clients cid leaveMsg).1, false) := by
    unfold hubUnregister
    exact hstep _ hbroadany
  refine ⟨fun hall => hstep clients (habsent hall), hsecond, ?_, ?_⟩
  · show (broadcastToOthers (hubUnregisterStep (hubUnregister clients cid leaveMsg).1 cid).1
        cid leaveMsg).map (fun c => c.id) = _
    rw [hfull]
    rw [broadcastToOthers_map_id]
  · show (hubUnregisterStep (hubUnregister clients cid leaveMsg).1 cid).2 = false
    rw [hfull]

theorem c6_witness :
    hubUnregisterStep [⟨"b", none, ([] : List Msg)⟩] "a" = ([⟨"b", none, []⟩], false) :=
  (c6_unregister_idempotent [⟨"b", none, []⟩] "a" (Msg.text "leave")).1 (by decide)

/-- C9: the broadcast deliver-or-evict loop mutates registry membership
(it deletes clients and closes their channels) while holding only the
shared (read) lock, and the readers-writer mutex admits it concurrently
with other shared-mode sections such as the `broadcastToOthers` registry
scan — so membership mutation is not mutually exclusive with snapshot
reads, contradicting the claimed locking discipline. -/
theorem c9_broadcast_eviction_under_read_lock :
    mutatesMembership HubSection.broadcastDeliverEvict = true
    ∧ lockModeOf HubSection.broadcastDeliverEvict = LockMode.shared
    ∧ mayHoldTogether HubSection.broadcastDeliverEvict HubSection.broadcastToOthersScan = true
    ∧ mutatesMembership HubSection.registerInsert = true
    ∧ lockModeOf HubSection.registerInsert = LockMode.exclusive
    ∧ mutatesMembership HubSection.unregisterRemove = true
    ∧ lockModeOf HubSection.unregisterRemove = LockMode.exclusive := by
  decide
